import Mathlib

set_option maxHeartbeats 1000000
set_option maxRecDepth 4096

/-!
Verification of the Healthcare Symptom Checker backend
(`backend/llm_client.py`, `backend/app.py`, `backend/database.py`).

The development shallowly embeds the response-processing pipeline of
`get_symptom_analysis`, the request validation and orchestration of the
`/analyze` endpoint, and the SQLite-backed query store, and proves the
specification's claims about them.
-/

/-- JSON values as produced by Python's `json.loads`.  A number is kept as
an exact decimal `m / 10 ^ s` with mantissa `m` and scale `s` (Python uses
IEEE doubles; only zeroness of numbers is ever observed below).  Object
fields keep insertion order, as Python dicts do. -/
inductive JVal where
  | null : JVal
  | bool : Bool → JVal
  | num : Int → Nat → JVal
  | str : String → JVal
  | arr : List JVal → JVal
  | obj : List (String × JVal) → JVal

/-- Python truthiness (`bool(x)`) of a JSON value: `None`, `False`, `0`,
`""`, `[]` and `\x7b\x7d` are falsy, everything else truthy. -/
def jtruthy : JVal → Bool
  | .null => false
  | .bool b => b
  | .num m _ => m != 0
  | .str s => !s.isEmpty
  | .arr l => !l.isEmpty
  | .obj f => !f.isEmpty

/-- Whitespace characters removed by Python's `str.strip()` (ASCII part;
`strip` also removes rarer Unicode whitespace, which never occurs in the
texts of interest). -/
def pyWs (c : Char) : Bool :=
  c = ' ' || c = '\t' || c = '\n' || c = '\r' || c = '\x0b' || c = '\x0c'

/-- Python `str.strip()` on a character list. -/
def pyStripL (l : List Char) : List Char :=
  ((l.dropWhile pyWs).reverse.dropWhile pyWs).reverse

/-- Python `str.strip()`. -/
def pyStrip (s : String) : String :=
  String.mk (pyStripL s.data)

/-- The fence-marker removal of `llm_client.py` lines 89–94: drop a leading
seven-character marker for a JSON fence, then a leading three-character
marker, then a trailing three-character marker, each only when present. -/
def fenceMarks (l : List Char) : List Char :=
  let l1 := if ("```json".data).isPrefixOf l then l.drop 7 else l
  let l2 := if ("```".data).isPrefixOf l1 then l1.drop 3 else l1
  if ("```".data).isSuffixOf l2 then l2.take (l2.length - 3) else l2

/-- Lines 89–95 of `llm_client.py`: remove fence markers, then
`str.strip()` the result. -/
def stripFences (s : String) : String :=
  String.mk (pyStripL (fenceMarks s.data))

/-- Lines 86–95 of `llm_client.py`: `response.text.strip()` followed by
fence removal and the final `strip()` — the text handed to `json.loads`. -/
def cleanResponse (raw : String) : String :=
  stripFences (pyStrip raw)

/-! ### A model of Python's `json.loads`

Faithful to the strict JSON grammar `json.loads` implements: strings with
the standard escapes including surrogate-paired `\uXXXX` forms, numbers
with optional sign, fraction and exponent (no leading zeros), `true`,
`false`, `null`, arrays and objects, with ASCII whitespace between tokens
and nothing but whitespace after the value.  Deviations from CPython, all
invisible to the properties proved below: numbers are exact decimals
rather than IEEE doubles, the nonstandard `NaN`/`Infinity` literals are
rejected, and a lone surrogate escape is rejected instead of producing a
surrogate code unit (Lean strings cannot hold one). -/

/-- JSON inter-token whitespace. -/
def isJsonWs (c : Char) : Bool :=
  c = ' ' || c = '\t' || c = '\n' || c = '\r'

def skipWs (l : List Char) : List Char := l.dropWhile isJsonWs

/-- Value of one hexadecimal digit, written over code points: digits are
48-57, lowercase letters 97-102 (value `n - 87`), uppercase 65-70
(value `n - 55`). -/
def hexVal (c : Char) : Option Nat :=
  let n := c.toNat
  if 48 ≤ n ∧ n ≤ 57 then some (n - 48)
  else if 97 ≤ n ∧ n ≤ 102 then some (n - 87)
  else if 65 ≤ n ∧ n ≤ 70 then some (n - 55)
  else none

def hex4Val (a b c d : Char) : Option Nat :=
  match hexVal a, hexVal b, hexVal c, hexVal d with
  | some x, some y, some z, some w => some (x * 4096 + y * 256 + z * 16 + w)
  | _, _, _, _ => none

def pushChar (c : Char) :
    Option (List Char × List Char) → Option (List Char × List Char)
  | some (s, r) => some (c :: s, r)
  | none => none

/-- Parse the body of a JSON string after the opening quote; returns the
decoded characters and the input after the closing quote.  The fuel only
bounds recursion depth: every step consumes at least one input character,
so any fuel above the input length is enough. -/
def parseStrBody (fuel : Nat) (l : List Char) :
    Option (List Char × List Char) :=
  match fuel with
  | 0 => none
  | fl + 1 =>
    match l with
    | [] => none
    | c :: rest =>
      if c = '"' then some ([], rest)
      else if c = '\\' then
        match rest with
        | [] => none
        | e :: r =>
          if e = '"' then pushChar '"' (parseStrBody fl r)
          else if e = '\\' then pushChar '\\' (parseStrBody fl r)
          else if e = '/' then pushChar '/' (parseStrBody fl r)
          else if e = 'b' then pushChar '\x08' (parseStrBody fl r)
          else if e = 'f' then pushChar '\x0c' (parseStrBody fl r)
          else if e = 'n' then pushChar '\n' (parseStrBody fl r)
          else if e = 'r' then pushChar '\r' (parseStrBody fl r)
          else if e = 't' then pushChar '\t' (parseStrBody fl r)
          else if e = 'u' then
            match r with
            | a :: b :: c2 :: d :: r2 =>
              (match hex4Val a b c2 d with
              | none => none
              | some n =>
                if 0xD800 ≤ n && n < 0xDC00 then
                  match r2 with
                  | e2 :: u2 :: a2 :: b2 :: c3 :: d2 :: r3 =>
                    if e2 = '\\' then
                      if u2 = 'u' then
                        match hex4Val a2 b2 c3 d2 with
                        | none => none
                        | some m =>
                          if 0xDC00 ≤ m && m < 0xE000 then
                            pushChar
                              (Char.ofNat
                                (0x10000 + (n - 0xD800) * 0x400 + (m - 0xDC00)))
                              (parseStrBody fl r3)
                          else none
                      else none
                    else none
                  | _ => none
                else if 0xDC00 ≤ n && n < 0xE000 then none
                else pushChar (Char.ofNat n) (parseStrBody fl r2))
            | _ => none
          else none
      else if c.toNat < 0x20 then none
      else pushChar c (parseStrBody fl rest)
termination_by structural fuel

def isDigit (c : Char) : Bool := '0' ≤ c && c ≤ '9'

def digitVal (c : Char) : Nat := c.toNat - '0'.toNat

def digitsToNat (l : List Char) : Nat :=
  l.foldl (fun a c => a * 10 + digitVal c) 0

/-- The integer-part digits of a JSON number: a lone `0`, or a nonzero
digit followed by digits (JSON forbids leading zeros). -/
def parseIntDigits : List Char → Option (List Char × List Char)
  | [] => none
  | c :: rest =>
    if c = '0' then some ([c], rest)
    else if isDigit c then
      let p := rest.span isDigit
      some (c :: p.1, p.2)
    else none

/-- Optional fraction part; a dot must be followed by at least one digit. -/
def parseFrac : List Char → Option (List Char × List Char)
  | '.' :: r =>
    let p := r.span isDigit
    if p.1.isEmpty then none else some (p.1, p.2)
  | l => some ([], l)

/-- Optional exponent part, as a signed decimal exponent. -/
def parseExp : List Char → Option (Int × List Char)
  | [] => some (0, [])
  | c :: r =>
    if c = 'e' || c = 'E' then
      let sp : Bool × List Char :=
        match r with
        | '+' :: rr => (false, rr)
        | '-' :: rr => (true, rr)
        | _ => (false, r)
      let p := sp.2.span isDigit
      if p.1.isEmpty then none
      else if sp.1 then some (-(digitsToNat p.1 : Int), p.2)
      else some ((digitsToNat p.1 : Int), p.2)
    else some (0, c :: r)

/-- Assemble a parsed number `±ids.fds × 10^e` as an exact decimal. -/
def numOfParts (neg : Bool) (ids fds : List Char) (e : Int) : JVal :=
  let m0 : Int := (digitsToNat (ids ++ fds) : Int)
  let m : Int := if neg then -m0 else m0
  let s : Nat := fds.length
  if 0 ≤ e then
    if s ≤ e.toNat then .num (m * (10 : Int) ^ (e.toNat - s)) 0
    else .num m (s - e.toNat)
  else .num m (s + (-e).toNat)

def parseNum (cs : List Char) : Option (JVal × List Char) :=
  let sp : Bool × List Char :=
    match cs with
    | '-' :: r => (true, r)
    | _ => (false, cs)
  match parseIntDigits sp.2 with
  | none => none
  | some (ids, r1) =>
    match parseFrac r1 with
    | none => none
    | some (fds, r2) =>
      match parseExp r2 with
      | none => none
      | some (e, r3) => some (numOfParts sp.1 ids fds e, r3)

/-- Field update preserving position, as Python dict assignment does for an
existing key. -/
def setVal : List (String × JVal) → String → JVal → List (String × JVal)
  | [], _, _ => []
  | p :: ps, k, v =>
    if p.1 == k then (k, v) :: setVal ps k v else p :: setVal ps k v

def hasKey : List (String × JVal) → String → Bool
  | [], _ => false
  | p :: ps, k => (p.1 == k) || hasKey ps k

/-- Python dict insertion: an existing key keeps its position and takes the
new value; a new key is appended. -/
def insKey (fields : List (String × JVal)) (k : String) (v : JVal) :
    List (String × JVal) :=
  if hasKey fields k then setVal fields k v else fields ++ [(k, v)]

mutual

def parseVal (fuel : Nat) (cs : List Char) : Option (JVal × List Char) :=
  match fuel with
  | 0 => none
  | f + 1 =>
    match skipWs cs with
    | [] => none
    | '\x7b' :: rest =>
      (match skipWs rest with
      | '\x7d' :: r => some (.obj [], r)
      | _ => parseObjRest f rest [])
    | '[' :: rest =>
      (match skipWs rest with
      | ']' :: r => some (.arr [], r)
      | _ => parseArrRest f rest [])
    | '"' :: rest =>
      (match parseStrBody (rest.length + 1) rest with
      | some (s, r) => some (.str (String.mk s), r)
      | none => none)
    | 't' :: 'r' :: 'u' :: 'e' :: r => some (.bool true, r)
    | 'f' :: 'a' :: 'l' :: 's' :: 'e' :: r => some (.bool false, r)
    | 'n' :: 'u' :: 'l' :: 'l' :: r => some (.null, r)
    | l => parseNum l
termination_by structural fuel

def parseArrRest (fuel : Nat) (cs : List Char) (acc : List JVal) :
    Option (JVal × List Char) :=
  match fuel with
  | 0 => none
  | f + 1 =>
    match parseVal f cs with
    | none => none
    | some (v, r) =>
      match skipWs r with
      | ']' :: r2 => some (.arr (v :: acc).reverse, r2)
      | ',' :: r2 => parseArrRest f r2 (v :: acc)
      | _ => none
termination_by structural fuel

def parseObjRest (fuel : Nat) (cs : List Char) (acc : List (String × JVal)) :
    Option (JVal × List Char) :=
  match fuel with
  | 0 => none
  | f + 1 =>
    match skipWs cs with
    | '"' :: r =>
      (match parseStrBody (r.length + 1) r with
      | none => none
      | some (k, r2) =>
        match skipWs r2 with
        | ':' :: r3 =>
          (match parseVal f r3 with
          | none => none
          | some (v, r4) =>
            let acc2 := insKey acc (String.mk k) v
            match skipWs r4 with
            | '\x7d' :: r5 => some (.obj acc2, r5)
            | ',' :: r5 => parseObjRest f r5 acc2
            | _ => none)
        | _ => none)
    | _ => none
termination_by structural fuel

end

/-- Python's `json.loads`: parse one JSON value and require that nothing
but whitespace follows it. -/
def parseJson (s : String) : Option JVal :=
  match parseVal (s.data.length + 1) s.data with
  | some (v, rest) => if (skipWs rest).isEmpty then some v else none
  | none => none

/-! ### Validation, fallbacks and `get_symptom_analysis` -/

/-- Lookup of a key among object fields (the parser keeps at most one
occurrence of each key). -/
def jlookup : List (String × JVal) → String → Option JVal
  | [], _ => none
  | p :: ps, k => if p.1 == k then some p.2 else jlookup ps k

def jgetD (fields : List (String × JVal)) (k : String) : JVal :=
  (jlookup fields k).getD .null

/-- Subscript lookup on a JSON value, defined when it is an object holding
the key. -/
def jvGet (v : JVal) (k : String) : Option JVal :=
  match v with
  | .obj fields => jlookup fields k
  | _ => none

/-- Line 106 of `llm_client.py`: the single-element list substituted for an
empty (falsy) `conditions` value. -/
def defaultConditions : JVal :=
  .arr [.str "Unable to determine specific conditions. Please consult a healthcare provider."]

/-- Line 108 of `llm_client.py`: the single-element list substituted for an
empty (falsy) `recommendations` value. -/
def defaultRecommendations : JVal :=
  .arr [.str "Consult with a healthcare professional for proper evaluation."]

/-- Lines 112–125 of `llm_client.py`: the fixed payload returned when
`json.loads` raises `JSONDecodeError`. -/
def jsonErrorFallback : JVal :=
  .obj [("conditions", .arr
          [.str "Analysis could not be completed. The symptoms you described may have multiple possible causes."]),
        ("recommendations", .arr
          [.str "Schedule an appointment with your primary care physician",
           .str "Keep a symptom diary noting when symptoms occur and their severity",
           .str "Seek immediate medical attention if symptoms worsen or you experience severe pain, difficulty breathing, or other concerning signs"])]

/-- Lines 127–137 of `llm_client.py`: the fixed payload returned by the
generic `except Exception` handler. -/
def techErrorFallback : JVal :=
  .obj [("conditions", .arr
          [.str "Unable to analyze symptoms at this time due to a technical error."]),
        ("recommendations", .arr
          [.str "Please try again later or consult directly with a healthcare provider",
           .str "If experiencing severe symptoms, seek immediate medical attention"])]

/-- Lines 100–110 of `llm_client.py`, together with the exception routing of
lines 127–137.  For a dict, a missing `conditions` or `recommendations` key
raises `ValueError` (line 102), which the generic handler turns into
`techErrorFallback`; with both keys present, a falsy value (`not
analysis[k]`) is replaced in place by the corresponding default list and the
dict is returned.  For a non-dict parse result the membership test or the
subscript raises (`TypeError`, or the same `ValueError` when the membership
test happens to fail), so every non-dict also lands in `techErrorFallback`. -/
def validateAnalysis : JVal → JVal
  | .obj fields =>
    if hasKey fields "conditions" && hasKey fields "recommendations" then
      let f1 := if jtruthy (jgetD fields "conditions") then fields
                else setVal fields "conditions" defaultConditions
      let f2 := if jtruthy (jgetD f1 "recommendations") then f1
                else setVal f1 "recommendations" defaultRecommendations
      .obj f2
    else techErrorFallback
  | _ => techErrorFallback

/-- The function `get_symptom_analysis` (`llm_client.py` lines 13–137) as a function of
the raw text returned by the model backend: the network call itself is
external I/O, and everything the function does with its result — lines
86–137 — is embedded here.  `json.JSONDecodeError` from `json.loads` is
answered by `jsonErrorFallback` (note that the `ValueError` of line 102 is
not caught by that clause: it reaches the generic handler instead). -/
def get_symptom_analysis (rawResponse : String) : JVal :=
  match parseJson (cleanResponse rawResponse) with
  | none => jsonErrorFallback
  | some analysis => validateAnalysis analysis

/-! ### The `/analyze` endpoint -/

/-- The request body of `/analyze` (`SymptomRequest`, `app.py` lines
51–54). -/
structure SymptomRequest where
  symptoms : String
  age : Option Int
  gender : Option String

/-- The `ge=0, le=120` bound on the optional `age` field. -/
def validAge : Option Int → Bool
  | none => true
  | some a => decide (0 ≤ a) && decide (a ≤ 120)

/-- Pydantic validation of `SymptomRequest`: `symptoms` between 3 and 1000
characters, `age` in 0–120 when given; `gender` is unconstrained. -/
def requestValid (r : SymptomRequest) : Bool :=
  decide (3 ≤ r.symptoms.length) && decide (r.symptoms.length ≤ 1000)
    && validAge r.age

/-- Outcome of one `/analyze` call.  `ok` is the shape of the
`SymptomResponse` built at `app.py` lines 127–145 (the two lists and the
`query_id`; `disclaimer` and `timestamp` are handler constants) — a path
that is dead code in the deployed program, see `analyze`.
`validationError` is FastAPI's default answer to a pydantic body failure,
`clientError` the explicit `HTTPException(400)` of line 98, `serverError`
the generic handler of lines 149–155. -/
inductive HttpResult where
  | ok (conditions recommendations : List String) (queryId : Option Nat) : HttpResult
  | validationError : HttpResult
  | clientError : HttpResult
  | serverError : HttpResult

/-- Status codes: FastAPI's default `RequestValidationError` handler
answers 422 (`app.py` registers no custom handler), the blank-symptoms
`HTTPException` carries 400, and the catch-all of lines 152–155 raises
500. -/
def HttpResult.status : HttpResult → Nat
  | .ok _ _ _ => 200
  | .validationError => 422
  | .clientError => 400
  | .serverError => 500

/-- The `/analyze` handler (`app.py` lines 84–155) as a function of the
request, the raw model response text, and the database outcome (`some id`
when `save_query` returns an id, `none` when it fails).  Pydantic rejects
an invalid body with FastAPI's default HTTP 422 before the handler runs;
blank-only `symptoms` raise the line-98 `HTTPException(400)`.  Past those
checks, line 103 binds `analysis` to the coroutine object that calling the
`async def get_symptom_analysis` (`llm_client.py` line 13) returns — the
call is never awaited — so line 110's `analysis['conditions']` raises
`TypeError`, which lines 149–155 turn into HTTP 500.  Every validated
request therefore answers 500: the model backend is never invoked (none of
the coroutine's body runs), `save_query` is never reached, and the
200-response construction of lines 127–145 is dead code — which is why the
raw response text and the store outcome never influence the result. -/
def analyze (r : SymptomRequest) (llmRaw : String) (db : Option Nat) :
    HttpResult :=
  if !requestValid r then .validationError
  else if pyStrip r.symptoms = "" then .clientError
  else .serverError

/-! ### The query store (`database.py`)

`save_query` JSON-serializes the two lists with `json.dumps` (default
settings, so `ensure_ascii=True`) and inserts a row whose `id` comes from
the `AUTOINCREMENT` primary key and whose `timestamp` is SQLite's
`CURRENT_TIMESTAMP`, a UTC wall-clock reading at one-second resolution —
modelled as a `Nat` supplied by the caller.  `get_recent_queries` selects
`ORDER BY timestamp DESC LIMIT ?` and `json.loads`-decodes each row. -/

def hexDigitChar (n : Nat) : Char :=
  if n < 10 then Char.ofNat ('0'.toNat + n) else Char.ofNat ('a'.toNat + n - 10)

def hex4 (n : Nat) : List Char :=
  [hexDigitChar (n / 4096 % 16), hexDigitChar (n / 256 % 16),
   hexDigitChar (n / 16 % 16), hexDigitChar (n % 16)]

/-- Python `json.dumps` escaping of one character (`ensure_ascii=True`): the two
mandatory escapes, the five short control escapes, `\uXXXX` for the other
control characters and for every non-ASCII character, with a surrogate pair
above `U+FFFF`. -/
def encChar (c : Char) : List Char :=
  if c = '"' then ['\\', '"']
  else if c = '\\' then ['\\', '\\']
  else if c = '\x08' then ['\\', 'b']
  else if c = '\x0c' then ['\\', 'f']
  else if c = '\n' then ['\\', 'n']
  else if c = '\r' then ['\\', 'r']
  else if c = '\t' then ['\\', 't']
  else if c.toNat < 0x20 then '\\' :: 'u' :: hex4 c.toNat
  else if c.toNat < 0x7f then [c]
  else if c.toNat < 0x10000 then '\\' :: 'u' :: hex4 c.toNat
  else
    let v := c.toNat - 0x10000
    ('\\' :: 'u' :: hex4 (0xD800 + v / 0x400)) ++
      ('\\' :: 'u' :: hex4 (0xDC00 + v % 0x400))

def encChars : List Char → List Char
  | [] => []
  | c :: rest => encChar c ++ encChars rest

def encStr (s : String) : List Char :=
  '"' :: (encChars s.data ++ ['"'])

/-- The comma-space separated items of `json.dumps` on a list. -/
def encItems : List String → List Char
  | [] => []
  | [s] => encStr s
  | s :: rest => encStr s ++ ',' :: ' ' :: encItems rest

/-- Python `json.dumps` on a list of strings. -/
def dumpsStringList (l : List String) : String :=
  String.mk ('[' :: (encItems l ++ [']']))

/-- One row of the `queries` table as stored: the two list columns hold
JSON-encoded text. -/
structure QueryRow where
  id : Nat
  symptoms : String
  age : Option Int
  gender : Option String
  conditionsText : String
  recommendationsText : String
  timestamp : Nat

/-- The `queries` table together with the `AUTOINCREMENT` counter (SQLite
starts it at 1). -/
structure QueryDB where
  rows : List QueryRow
  nextId : Nat

def emptyDB : QueryDB := ⟨[], 1⟩

/-- Function `save_query` (`database.py` lines 31–76) on its successful path: encode
both lists with `json.dumps`, insert the row, return `cursor.lastrowid`.
`now` stands for `CURRENT_TIMESTAMP` in whole seconds.  The `except` branch
that swallows a failure and returns `None` is modelled at the caller — the
handler's `db` argument is `none` in that case. -/
def save_query (db : QueryDB) (now : Nat) (symptoms : String)
    (age : Option Int) (gender : Option String)
    (conditions recommendations : List String) : QueryDB × Nat :=
  let qid := db.nextId
  (⟨db.rows ++ [⟨qid, symptoms, age, gender, dumpsStringList conditions,
      dumpsStringList recommendations, now⟩], qid + 1⟩, qid)

/-- Insertion step of a stable descending sort on `timestamp`. -/
def insertDesc (r : QueryRow) : List QueryRow → List QueryRow
  | [] => [r]
  | x :: xs =>
    if x.timestamp < r.timestamp then r :: x :: xs else x :: insertDesc r xs

/-- The query `ORDER BY timestamp DESC`.  SQL fixes only the key order:
the relative order of rows with equal timestamps is unspecified, and
nothing in the source determines it.  An executable model must still pick
one realization — here an insertion sort over the rows in rowid order —
but no fact proved below depends on that pick: ordering conclusions are
drawn only for strictly increasing timestamps, where every realization of
`ORDER BY` agrees. -/
def sortByTimestampDesc (rows : List QueryRow) : List QueryRow :=
  rows.foldl (fun acc r => insertDesc r acc) []

/-- A row as returned to callers: the two list columns decoded by
`json.loads`. -/
structure QueryOut where
  id : Nat
  symptoms : String
  age : Option Int
  gender : Option String
  conditions : JVal
  recommendations : JVal
  timestamp : Nat

/-- The read loop's conversion of one row; `none` models `json.loads`
raising on a corrupted column. -/
def rowOut (r : QueryRow) : Option QueryOut :=
  match parseJson r.conditionsText, parseJson r.recommendationsText with
  | some c, some rc =>
    some ⟨r.id, r.symptoms, r.age, r.gender, c, rc, r.timestamp⟩
  | _, _ => none

/-- Function `get_recent_queries` (`database.py` lines 78–125): select the first
`limit` rows by descending timestamp and decode them; any exception inside
the loop makes the function return `[]`. -/
def get_recent_queries (db : QueryDB) (limit : Nat) : List QueryOut :=
  match ((sortByTimestampDesc db.rows).take limit).mapM rowOut with
  | some outs => outs
  | none => []

/-- Function `get_query_by_id` (`database.py` lines 127–168): `WHERE id = ?`, decode
the row if found; any exception yields `None`. -/
def get_query_by_id (db : QueryDB) (qid : Nat) : Option QueryOut :=
  match db.rows.find? (fun r => r.id == qid) with
  | some row => rowOut row
  | none => none

/-- The per-request inputs of one successful `/analyze` save. -/
structure SaveInput where
  now : Nat
  symptoms : String
  age : Option Int
  gender : Option String
  conditions : List String
  recommendations : List String

/-- N successive `save_query` calls. -/
def saveAll (db : QueryDB) : List SaveInput → QueryDB
  | [] => db
  | i :: rest =>
    saveAll (save_query db i.now i.symptoms i.age i.gender
        i.conditions i.recommendations).1 rest

/-- The decoded records the saves of `saveAll` should read back as, in
creation order, with ids assigned from `qid`. -/
def expectedOuts (qid : Nat) : List SaveInput → List QueryOut
  | [] => []
  | i :: rest =>
    ⟨qid, i.symptoms, i.age, i.gender, .arr (i.conditions.map .str),
      .arr (i.recommendations.map .str), i.now⟩ :: expectedOuts (qid + 1) rest

/-- The rows `saveAll` appends, with ids assigned from `qid`. -/
def storedRows (qid : Nat) : List SaveInput → List QueryRow
  | [] => []
  | i :: rest =>
    ⟨qid, i.symptoms, i.age, i.gender, dumpsStringList i.conditions,
      dumpsStringList i.recommendations, i.now⟩ :: storedRows (qid + 1) rest

/-- Total decoding of a row, `null` standing in for an undecodable column
(never hit on rows written by `save_query`). -/
def outOfRow (r : QueryRow) : QueryOut :=
  ⟨r.id, r.symptoms, r.age, r.gender, (parseJson r.conditionsText).getD .null,
    (parseJson r.recommendationsText).getD .null, r.timestamp⟩

/-- Value `v` is a non-empty list whenever it is a list at all. -/
def nonEmptyIfList : JVal → Bool
  | .arr l => !l.isEmpty
  | _ => true

/-- Key `k` of `v` holds a non-empty list — the reading of "non-empty
`conditions`/`recommendations` field" matching the `AnalysisResult` data
model (`conditions`, `recommendations : List[str]`). -/
def hasNonEmptyListField (v : JVal) (k : String) : Bool :=
  match jvGet v k with
  | some (.arr l) => !l.isEmpty
  | _ => false

/-- The `context` block of `get_symptom_analysis` (`llm_client.py` lines
30–35): the symptom line, then `Age:`/`Gender:` lines guarded by Python
truthiness (`if age:` / `if gender:`), so `age = 0` and `gender = ""` are
omitted.  The prompt (lines 37–70) embeds this context verbatim in a fixed
instruction template, so embedding of the fields in the prompt is embedding
in the context. -/
def buildContext (symptoms : String) (age : Option Int)
    (gender : Option String) : String :=
  let c0 := "Symptoms: " ++ symptoms
  let c1 := match age with
    | some a => if a ≠ 0 then c0 ++ "\nAge: " ++ toString a else c0
    | none => c0
  match gender with
  | some g => if g ≠ "" then c1 ++ "\nGender: " ++ g else c1
  | none => c1

/-! ## Sanity checks on concrete inputs -/

example : pyStrip "  ab c \n" = "ab c" := by decide

example : "ab".data = ['a', 'b'] := by decide

example : parseJson "\x7b\"a\": 1\x7d" = some (.obj [("a", .num 1 0)]) := by rfl

example : parseJson "I cannot help with that" = none := by rfl

example :
    parseJson "[\"x\", -2.5e1, true, null]" =
      some (.arr [.str "x", .num (-25) 0, .bool true, .null]) := by rfl

example : parseJson "\x7b\"a\": 1" = none := by rfl

example : parseJson "01" = none := by rfl

example :
    analyze ⟨"abc", some 120, none⟩
      "\x7b\"conditions\": [\"a\"], \"recommendations\": [\"b\"]\x7d" (some 1) =
      .serverError := by rfl

example :
    get_symptom_analysis "I cannot help with that" = jsonErrorFallback := by rfl

example :
    get_symptom_analysis
      "```json\n\x7b\"conditions\": [], \"recommendations\": [\"x\"]\x7d\n```" =
      .obj [("conditions", defaultConditions), ("recommendations", .arr [.str "x"])] := by
  rfl

example : dumpsStringList ["a\nb", "c"] = "[\"a\\nb\", \"c\"]" := by decide

/-! ## Lemmas: `json.loads` inverts `json.dumps` on lists of strings -/

theorem hexVal_hexDigitChar (n : Nat) (h : n < 16) :
    hexVal (hexDigitChar n) = some n := by
  interval_cases n <;> decide

theorem hex4Val_hexDigitChars (n : Nat) (h : n < 65536) :
    hex4Val (hexDigitChar (n / 4096 % 16)) (hexDigitChar (n / 256 % 16))
      (hexDigitChar (n / 16 % 16)) (hexDigitChar (n % 16)) = some n := by
  have e1 := hexVal_hexDigitChar (n / 4096 % 16) (by omega)
  have e2 := hexVal_hexDigitChar (n / 256 % 16) (by omega)
  have e3 := hexVal_hexDigitChar (n / 16 % 16) (by omega)
  have e4 := hexVal_hexDigitChar (n % 16) (by omega)
  simp only [hex4Val, e1, e2, e3, e4]
  congr 1
  omega

/-- The valid-scalar property of a `Char`, at the `Nat` level. -/
theorem char_toNat_valid (c : Char) :
    c.toNat < 0xD800 ∨ (0xDFFF < c.toNat ∧ c.toNat < 0x110000) := c.valid

/-- A non-surrogate `\uXXXX` escape decodes to its code point. -/
theorem parseStrBody_u (fl : Nat) (n : Nat) (hn : n < 65536)
    (hs : ¬(0xD800 ≤ n ∧ n < 0xE000)) (tail : List Char) :
    parseStrBody (fl + 1) ('\\' :: 'u' :: hexDigitChar (n / 4096 % 16) ::
        hexDigitChar (n / 256 % 16) :: hexDigitChar (n / 16 % 16) ::
        hexDigitChar (n % 16) :: tail) =
      pushChar (Char.ofNat n) (parseStrBody fl tail) := by
  conv_lhs => rw [parseStrBody.eq_def]
  have hx := hex4Val_hexDigitChars n hn
  simp only [hx]
  simp only [reduceIte, Char.reduceEq]
  rw [if_neg (by simp; omega : ¬((0xD800 ≤ n && n < 0xDC00) = true)),
    if_neg (by simp; omega : ¬((0xDC00 ≤ n && n < 0xE000) = true))]

/-- A surrogate pair of `\uXXXX` escapes decodes to its astral code point. -/
theorem parseStrBody_uPair (fl : Nat) (v : Nat) (hv : v < 0x100000)
    (tail : List Char) :
    parseStrBody (fl + 1)
      ('\\' :: 'u' :: hexDigitChar ((0xD800 + v / 0x400) / 4096 % 16) ::
        hexDigitChar ((0xD800 + v / 0x400) / 256 % 16) ::
        hexDigitChar ((0xD800 + v / 0x400) / 16 % 16) ::
        hexDigitChar ((0xD800 + v / 0x400) % 16) ::
        '\\' :: 'u' :: hexDigitChar ((0xDC00 + v % 0x400) / 4096 % 16) ::
        hexDigitChar ((0xDC00 + v % 0x400) / 256 % 16) ::
        hexDigitChar ((0xDC00 + v % 0x400) / 16 % 16) ::
        hexDigitChar ((0xDC00 + v % 0x400) % 16) :: tail) =
      pushChar (Char.ofNat (0x10000 + v)) (parseStrBody fl tail) := by
  conv_lhs => rw [parseStrBody.eq_def]
  have hx1 := hex4Val_hexDigitChars (0xD800 + v / 0x400) (by omega)
  have hx2 := hex4Val_hexDigitChars (0xDC00 + v % 0x400) (by omega)
  simp only [hx1, hx2]
  simp only [reduceIte, Char.reduceEq]
  rw [if_pos (by simp; omega :
      (0xD800 ≤ 0xD800 + v / 0x400 && 0xD800 + v / 0x400 < 0xDC00) = true),
    if_pos (by simp; omega :
      (0xDC00 ≤ 0xDC00 + v % 0x400 && 0xDC00 + v % 0x400 < 0xE000) = true),
    show 0x10000 + (0xD800 + v / 0x400 - 0xD800) * 0x400 +
        (0xDC00 + v % 0x400 - 0xDC00) = 0x10000 + v from by omega]

/-- Decoding one encoded character costs one unit of fuel. -/
theorem parseStrBody_encChar (fl : Nat) (c : Char) (tail : List Char) :
    parseStrBody (fl + 1) (encChar c ++ tail) =
      pushChar c (parseStrBody fl tail) := by
  have hv := char_toNat_valid c
  by_cases h1 : c = '"'
  · subst h1
    conv_lhs => rw [show encChar '"' ++ tail = '\\' :: '"' :: tail from rfl,
      parseStrBody.eq_def]
    simp
  by_cases h2 : c = '\\'
  · subst h2
    conv_lhs => rw [show encChar '\\' ++ tail = '\\' :: '\\' :: tail from rfl,
      parseStrBody.eq_def]
    simp
  by_cases h3 : c = '\x08'
  · subst h3
    conv_lhs => rw [show encChar '\x08' ++ tail = '\\' :: 'b' :: tail from rfl,
      parseStrBody.eq_def]
    simp
  by_cases h4 : c = '\x0c'
  · subst h4
    conv_lhs => rw [show encChar '\x0c' ++ tail = '\\' :: 'f' :: tail from rfl,
      parseStrBody.eq_def]
    simp
  by_cases h5 : c = '\n'
  · subst h5
    conv_lhs => rw [show encChar '\n' ++ tail = '\\' :: 'n' :: tail from rfl,
      parseStrBody.eq_def]
    simp
  by_cases h6 : c = '\r'
  · subst h6
    conv_lhs => rw [show encChar '\r' ++ tail = '\\' :: 'r' :: tail from rfl,
      parseStrBody.eq_def]
    simp
  by_cases h7 : c = '\t'
  · subst h7
    conv_lhs => rw [show encChar '\t' ++ tail = '\\' :: 't' :: tail from rfl,
      parseStrBody.eq_def]
    simp
  by_cases h8 : c.toNat < 0x20
  · have he : encChar c ++ tail = '\\' :: 'u' ::
        hexDigitChar (c.toNat / 4096 % 16) :: hexDigitChar (c.toNat / 256 % 16) ::
        hexDigitChar (c.toNat / 16 % 16) :: hexDigitChar (c.toNat % 16) :: tail := by
      simp [encChar, h1, h2, h3, h4, h5, h6, h7, h8, hex4]
    rw [he, parseStrBody_u fl c.toNat (by omega) (by omega) tail, Char.ofNat_toNat]
  by_cases h9 : c.toNat < 0x7f
  · have he : encChar c ++ tail = c :: tail := by
      simp [encChar, h1, h2, h3, h4, h5, h6, h7, h8, h9]
    rw [he]
    conv_lhs => rw [parseStrBody.eq_def]
    simp [h1, h2, h8]
  by_cases h10 : c.toNat < 0x10000
  · have he : encChar c ++ tail = '\\' :: 'u' ::
        hexDigitChar (c.toNat / 4096 % 16) :: hexDigitChar (c.toNat / 256 % 16) ::
        hexDigitChar (c.toNat / 16 % 16) :: hexDigitChar (c.toNat % 16) :: tail := by
      simp [encChar, h1, h2, h3, h4, h5, h6, h7, h8, h9, h10, hex4]
    rw [he, parseStrBody_u fl c.toNat (by omega) (by omega) tail, Char.ofNat_toNat]
  · have he : encChar c ++ tail =
        '\\' :: 'u' :: hexDigitChar ((0xD800 + (c.toNat - 0x10000) / 0x400) / 4096 % 16) ::
        hexDigitChar ((0xD800 + (c.toNat - 0x10000) / 0x400) / 256 % 16) ::
        hexDigitChar ((0xD800 + (c.toNat - 0x10000) / 0x400) / 16 % 16) ::
        hexDigitChar ((0xD800 + (c.toNat - 0x10000) / 0x400) % 16) ::
        '\\' :: 'u' :: hexDigitChar ((0xDC00 + (c.toNat - 0x10000) % 0x400) / 4096 % 16) ::
        hexDigitChar ((0xDC00 + (c.toNat - 0x10000) % 0x400) / 256 % 16) ::
        hexDigitChar ((0xDC00 + (c.toNat - 0x10000) % 0x400) / 16 % 16) ::
        hexDigitChar ((0xDC00 + (c.toNat - 0x10000) % 0x400) % 16) :: tail := by
      simp [encChar, h1, h2, h3, h4, h5, h6, h7, h8, h9, h10, hex4]
    rw [he, parseStrBody_uPair fl (c.toNat - 0x10000) (by omega) tail,
      show 0x10000 + (c.toNat - 0x10000) = c.toNat from by omega, Char.ofNat_toNat]

theorem data_mk (l : List Char) : (String.mk l).data = l := rfl

/-- Decoding an encoded character sequence; one fuel unit per character. -/
theorem parseStrBody_encChars (l : List Char) (rest : List Char) : ∀ (fl : Nat),
    l.length + 1 ≤ fl → parseStrBody fl (encChars l ++ '"' :: rest) = some (l, rest)
  | 0, h => absurd h (by omega)
  | fl + 1, h => by
    cases l with
    | nil =>
      conv_lhs => rw [parseStrBody.eq_def]
      simp [encChars]
    | cons c cs =>
      rw [encChars, List.append_assoc, parseStrBody_encChar fl c _,
        parseStrBody_encChars cs rest fl (by simpa using Nat.lt_succ_iff.mp h)]
      rfl

theorem one_le_encChar_length (c : Char) : 1 ≤ (encChar c).length := by
  unfold encChar
  split_ifs <;> simp [hex4]

theorem length_le_encChars_length (l : List Char) :
    l.length ≤ (encChars l).length := by
  induction l with
  | nil => simp [encChars]
  | cons c cs ih =>
    have := one_le_encChar_length c
    simp only [encChars, List.length_append, List.length_cons]
    omega

theorem length_le_encItems_length (l : List String) :
    l.length ≤ (encItems l).length := by
  induction l with
  | nil => simp [encItems]
  | cons s ss ih =>
    cases ss with
    | nil => simp [encItems, encStr]
    | cons s1 ss1 =>
      have h2 : 2 ≤ (encStr s).length := by simp [encStr]
      have he : encItems (s :: s1 :: ss1) =
          encStr s ++ ',' :: ' ' :: encItems (s1 :: ss1) := rfl
      rw [he]
      simp only [List.length_append, List.length_cons] at ih ⊢
      omega

theorem skipWs_cons_of_not_ws (c : Char) (cs : List Char)
    (h : isJsonWs c = false) : skipWs (c :: cs) = c :: cs := by
  simp [skipWs, List.dropWhile, h]

theorem parseVal_ws (g : Nat) (cs : List Char) :
    parseVal g (' ' :: cs) = parseVal g cs := by
  cases g with
  | zero => rfl
  | succ f =>
    conv_lhs => rw [parseVal.eq_def]
    conv_rhs => rw [parseVal.eq_def]
    have h : skipWs (' ' :: cs) = skipWs cs := by
      simp [skipWs, List.dropWhile, isJsonWs]
    simp only [h]

theorem parseArrRest_ws (g : Nat) (cs : List Char) (acc : List JVal) :
    parseArrRest g (' ' :: cs) acc = parseArrRest g cs acc := by
  cases g with
  | zero => rfl
  | succ f =>
    conv_lhs => rw [parseArrRest.eq_def]
    conv_rhs => rw [parseArrRest.eq_def]
    simp only [parseVal_ws]

/-- Parsing a quoted encoded string costs one unit of `parseVal` fuel. -/
theorem parseVal_encStr (f : Nat) (s : String) (rest : List Char) :
    parseVal (f + 1) (encStr s ++ rest) = some (.str s, rest) := by
  have hshape : encStr s ++ rest = '"' :: (encChars s.data ++ '"' :: rest) := by
    simp [encStr]
  rw [hshape]
  conv_lhs => rw [parseVal.eq_def]
  have hq : skipWs ('"' :: (encChars s.data ++ '"' :: rest)) =
      '"' :: (encChars s.data ++ '"' :: rest) :=
    skipWs_cons_of_not_ws _ _ (by decide)
  have hp := parseStrBody_encChars s.data rest
      ((encChars s.data ++ '"' :: rest).length + 1)
      (by have := length_le_encChars_length s.data
          simp only [List.length_append, List.length_cons]
          omega)
  simp only [hq, hp]

/-- Parsing the encoded items of a nonempty list, one fuel unit per item. -/
theorem parseArrRest_encItems (ss : List String) : ∀ (s0 : String) (f : Nat)
    (acc : List JVal) (tail : List Char), ss.length + 2 ≤ f →
    parseArrRest f (encItems (s0 :: ss) ++ ']' :: tail) acc =
      some (.arr (acc.reverse ++ (s0 :: ss).map .str), tail) := by
  induction ss with
  | nil =>
    intro s0 f acc tail h
    obtain ⟨f1, rfl⟩ : ∃ f1, f = f1 + 1 := ⟨f - 1, by omega⟩
    obtain ⟨f2, rfl⟩ : ∃ f2, f1 = f2 + 1 := ⟨f1 - 1, by omega⟩
    conv_lhs => rw [parseArrRest.eq_def]
    have hv := parseVal_encStr f2 s0 (']' :: tail)
    have hq := skipWs_cons_of_not_ws ']' tail (by decide)
    have he : encItems [s0] = encStr s0 := rfl
    simp only [he, List.append_assoc, List.cons_append, List.nil_append, hv, hq]
    simp
  | cons s1 ss1 ih =>
    intro s0 f acc tail h
    obtain ⟨f1, rfl⟩ : ∃ f1, f = f1 + 1 := ⟨f - 1, by omega⟩
    obtain ⟨f2, rfl⟩ : ∃ f2, f1 = f2 + 1 := ⟨f1 - 1, by omega⟩
    have he : encItems (s0 :: s1 :: ss1) =
        encStr s0 ++ ',' :: ' ' :: encItems (s1 :: ss1) := rfl
    conv_lhs => rw [parseArrRest.eq_def]
    have hv := parseVal_encStr f2 s0
      (',' :: ' ' :: (encItems (s1 :: ss1) ++ ']' :: tail))
    have hshape : encItems (s0 :: s1 :: ss1) ++ ']' :: tail =
        encStr s0 ++ ',' :: ' ' :: (encItems (s1 :: ss1) ++ ']' :: tail) := by
      rw [he]; simp
    have hq := skipWs_cons_of_not_ws ','
      (' ' :: (encItems (s1 :: ss1) ++ ']' :: tail)) (by decide)
    simp only [hshape, hv, hq]
    rw [parseArrRest_ws]
    rw [ih s1 (f2 + 1) (.str s0 :: acc) tail (by simp at h ⊢; omega)]
    simp

/-- Each item's encoding starts with a quote. -/
theorem encItems_cons_head (s0 : String) (ss : List String) :
    ∃ X, encItems (s0 :: ss) = '"' :: X := by
  cases ss with
  | nil => exact ⟨_, rfl⟩
  | cons s1 ss1 => exact ⟨_, rfl⟩

/-- The empty-array check falls through when the next character is a
quote. -/
theorem arrEmptyCheck_quote (Y : List Char) (D : Option (JVal × List Char)) :
    (match '"' :: Y with
      | ']' :: r => some (JVal.arr [], r)
      | _ => D) = D := rfl

/-- Python `json.loads` inverts `json.dumps` on every list of strings. -/
theorem parseJson_dumpsStringList (l : List String) :
    parseJson (dumpsStringList l) = some (.arr (l.map .str)) := by
  cases l with
  | nil => rfl
  | cons s0 ss =>
    unfold parseJson dumpsStringList
    rw [data_mk]
    have hlen : ('[' :: (encItems (s0 :: ss) ++ [']'])).length + 1 =
        ((encItems (s0 :: ss) ++ [']']).length + 1) + 1 := by simp
    rw [hlen]
    conv_lhs => rw [parseVal.eq_def]
    obtain ⟨X, hX⟩ := encItems_cons_head s0 ss
    have hr : encItems (s0 :: ss) ++ [']'] = '"' :: (X ++ [']']) := by
      rw [hX]; rfl
    have hq1 : skipWs ('[' :: (encItems (s0 :: ss) ++ [']'])) =
        '[' :: (encItems (s0 :: ss) ++ [']']) :=
      skipWs_cons_of_not_ws _ _ (by decide)
    have hq2 : skipWs (encItems (s0 :: ss) ++ [']']) = '"' :: (X ++ [']']) := by
      rw [hr]; exact skipWs_cons_of_not_ws _ _ (by decide)
    have harr := parseArrRest_encItems ss s0
      ((encItems (s0 :: ss) ++ [']']).length + 1) [] []
      (by have := length_le_encItems_length (s0 :: ss)
          simp only [List.length_append, List.length_cons, List.length_nil] at this ⊢
          omega)
    simp only [hq1, hq2, arrEmptyCheck_quote, harr]
    simp [skipWs]

/-! ## Lemmas: the query store -/

theorem rowOut_storedRow (qid : Nat) (i : SaveInput) :
    rowOut ⟨qid, i.symptoms, i.age, i.gender, dumpsStringList i.conditions,
        dumpsStringList i.recommendations, i.now⟩ =
      some ⟨qid, i.symptoms, i.age, i.gender, .arr (i.conditions.map .str),
        .arr (i.recommendations.map .str), i.now⟩ := by
  unfold rowOut
  rw [parseJson_dumpsStringList, parseJson_dumpsStringList]

theorem outOfRow_storedRow (qid : Nat) (i : SaveInput) :
    outOfRow ⟨qid, i.symptoms, i.age, i.gender, dumpsStringList i.conditions,
        dumpsStringList i.recommendations, i.now⟩ =
      ⟨qid, i.symptoms, i.age, i.gender, .arr (i.conditions.map .str),
        .arr (i.recommendations.map .str), i.now⟩ := by
  unfold outOfRow
  rw [parseJson_dumpsStringList, parseJson_dumpsStringList]
  rfl

theorem saveAll_state (items : List SaveInput) : ∀ (db : QueryDB),
    saveAll db items =
      ⟨db.rows ++ storedRows db.nextId items, db.nextId + items.length⟩ := by
  induction items with
  | nil => intro db; simp [saveAll, storedRows]
  | cons i rest ih =>
    intro db
    rw [saveAll, ih, save_query]
    simp [storedRows]
    omega

theorem storedRows_length (items : List SaveInput) : ∀ (qid : Nat),
    (storedRows qid items).length = items.length := by
  induction items with
  | nil => intro qid; rfl
  | cons i rest ih => intro qid; simp [storedRows, ih]

theorem storedRows_timestamp_mem (items : List SaveInput) : ∀ (qid : Nat)
    (r : QueryRow), r ∈ storedRows qid items → ∃ i ∈ items, r.timestamp = i.now := by
  induction items with
  | nil => intro qid r h; simp [storedRows] at h
  | cons i rest ih =>
    intro qid r h
    rw [storedRows] at h
    rcases List.mem_cons.mp h with h1 | h2
    · exact ⟨i, by simp, by rw [h1]⟩
    · obtain ⟨j, hj, he⟩ := ih (qid + 1) r h2
      exact ⟨j, by simp [hj], he⟩

theorem storedRows_pairwise (items : List SaveInput)
    (h : items.Pairwise (fun a b => a.now < b.now)) : ∀ (qid : Nat),
    (storedRows qid items).Pairwise
      (fun a b => a.timestamp < b.timestamp) := by
  induction items with
  | nil => intro qid; simp [storedRows]
  | cons i rest ih =>
    intro qid
    rw [storedRows]
    rw [List.pairwise_cons] at h ⊢
    refine ⟨?_, (ih h.2) (qid + 1)⟩
    intro r hr
    obtain ⟨j, hj, he⟩ := storedRows_timestamp_mem rest (qid + 1) r hr
    rw [he]
    exact h.1 j hj

theorem insertDesc_front (r : QueryRow) (l : List QueryRow)
    (h : ∀ x ∈ l, x.timestamp < r.timestamp) : insertDesc r l = r :: l := by
  cases l with
  | nil => rfl
  | cons x xs =>
    rw [insertDesc, if_pos (h x (by simp))]

theorem foldl_insertDesc_of_pairwise (l : List QueryRow) :
    ∀ (acc : List QueryRow),
    l.Pairwise (fun a b => a.timestamp < b.timestamp) →
    (∀ a ∈ acc, ∀ b ∈ l, a.timestamp < b.timestamp) →
    l.foldl (fun acc r => insertDesc r acc) acc = l.reverse ++ acc := by
  induction l with
  | nil => intro acc _ _; simp
  | cons x xs ih =>
    intro acc hp hacc
    rw [List.pairwise_cons] at hp
    rw [List.foldl_cons, insertDesc_front x acc
      (fun a ha => hacc a ha x (by simp))]
    rw [ih (x :: acc) hp.2 ?_]
    · simp
    · intro a ha b hb
      rcases List.mem_cons.mp ha with h1 | h2
      · rw [h1]; exact hp.1 b hb
      · exact hacc a h2 b (by simp [hb])

theorem sortByTimestampDesc_of_pairwise (l : List QueryRow)
    (hp : l.Pairwise (fun a b => a.timestamp < b.timestamp)) :
    sortByTimestampDesc l = l.reverse := by
  unfold sortByTimestampDesc
  rw [foldl_insertDesc_of_pairwise l [] hp (by simp)]
  simp

theorem mapM_of_forall_some (f : QueryRow → Option QueryOut)
    (g : QueryRow → QueryOut) (l : List QueryRow)
    (h : ∀ r ∈ l, f r = some (g r)) : l.mapM f = some (l.map g) := by
  induction l with
  | nil => rfl
  | cons x xs ih =>
    rw [List.mapM_cons, h x (by simp), ih (fun r hr => h r (by simp [hr]))]
    rfl

theorem map_outOfRow_storedRows (items : List SaveInput) : ∀ (qid : Nat),
    (storedRows qid items).map outOfRow = expectedOuts qid items := by
  induction items with
  | nil => intro qid; rfl
  | cons i rest ih =>
    intro qid
    rw [storedRows, expectedOuts, List.map_cons, ih (qid + 1),
      outOfRow_storedRow]

theorem rowOut_mem_storedRows (items : List SaveInput) (qid : Nat)
    (r : QueryRow) (hr : r ∈ storedRows qid items) :
    rowOut r = some (outOfRow r) := by
  induction items generalizing qid with
  | nil => simp [storedRows] at hr
  | cons i rest ih =>
    rw [storedRows] at hr
    rcases List.mem_cons.mp hr with h1 | h2
    · rw [h1, rowOut_storedRow, outOfRow_storedRow]
    · exact ih (qid + 1) h2

/-- After any run of saves with strictly increasing timestamps into the
empty store, `get_recent_queries` with the run's length returns exactly
those records, newest first. -/
theorem get_recent_queries_saveAll (items : List SaveInput)
    (hinc : List.Chain' (fun a b => a.now < b.now) items) :
    get_recent_queries (saveAll emptyDB items) items.length =
      (expectedOuts 1 items).reverse := by
  have htrans : IsTrans SaveInput (fun a b => a.now < b.now) :=
    ⟨fun a b c h1 h2 => Nat.lt_trans h1 h2⟩
  have hpw := List.chain'_iff_pairwise.mp hinc
  unfold get_recent_queries
  rw [saveAll_state items emptyDB]
  have hrows : (⟨emptyDB.rows ++ storedRows emptyDB.nextId items,
      emptyDB.nextId + items.length⟩ : QueryDB).rows = storedRows 1 items := by
    simp [emptyDB]
  rw [hrows]
  rw [sortByTimestampDesc_of_pairwise _ (storedRows_pairwise items hpw 1)]
  have hlen : items.length = (storedRows 1 items).reverse.length := by
    simp [storedRows_length]
  rw [hlen, List.take_length]
  rw [mapM_of_forall_some rowOut outOfRow _
    (fun r hr => rowOut_mem_storedRows items 1 r (List.mem_reverse.mp hr))]
  rw [List.map_reverse, map_outOfRow_storedRows items 1]

theorem find?_skip_rows (rows : List QueryRow) (qid : Nat)
    (h : ∀ r ∈ rows, r.id ≠ qid) (tail : List QueryRow) :
    (rows ++ tail).find? (fun r => r.id == qid) =
      tail.find? (fun r => r.id == qid) := by
  induction rows with
  | nil => rfl
  | cons x xs ih =>
    have hx : (x.id == qid) = false := by
      simp only [beq_eq_false_iff_ne, ne_eq]
      exact h x (by simp)
    rw [List.cons_append, List.find?_cons, hx]
    exact ih (fun r hr => h r (by simp [hr]))

/-- A record saved by `save_query` is read back by `get_query_by_id` with
the two lists intact: they are JSON-encoded on write and decoded on read. -/
theorem get_query_by_id_save_query (db : QueryDB) (now : Nat) (i : SaveInput)
    (hwf : ∀ r ∈ db.rows, r.id < db.nextId) :
    get_query_by_id
        (save_query db now i.symptoms i.age i.gender
          i.conditions i.recommendations).1
        (save_query db now i.symptoms i.age i.gender
          i.conditions i.recommendations).2 =
      some ⟨db.nextId, i.symptoms, i.age, i.gender,
        .arr (i.conditions.map .str), .arr (i.recommendations.map .str),
        now⟩ := by
  unfold save_query get_query_by_id
  simp only []
  rw [find?_skip_rows db.rows db.nextId
    (fun r hr => Nat.ne_of_lt (hwf r hr)) _]
  rw [List.find?_cons, show ((⟨db.nextId, i.symptoms, i.age, i.gender,
      dumpsStringList i.conditions, dumpsStringList i.recommendations,
      now⟩ : QueryRow).id == db.nextId) = true from by simp]
  have := rowOut_storedRow db.nextId
    ⟨now, i.symptoms, i.age, i.gender, i.conditions, i.recommendations⟩
  simp only at this
  simp [this]

/-! ## Lemmas: the validator -/

theorem jlookup_isSome_of_hasKey (fields : List (String × JVal)) (k : String)
    (h : hasKey fields k = true) : ∃ v, jlookup fields k = some v := by
  induction fields with
  | nil => simp [hasKey] at h
  | cons p ps ih =>
    rw [hasKey] at h
    rw [jlookup]
    cases hb : (p.1 == k) with
    | true => exact ⟨p.2, by rw [if_pos rfl]⟩
    | false =>
      rw [if_neg (by simp)]
      rw [hb] at h
      simp only [Bool.false_or] at h
      exact ih h

theorem hasKey_setVal (fields : List (String × JVal)) (k k' : String) (v : JVal) :
    hasKey (setVal fields k v) k' = hasKey fields k' := by
  induction fields with
  | nil => rfl
  | cons p ps ih =>
    rw [setVal]
    cases hb : (p.1 == k) with
    | true =>
      rw [if_pos rfl, hasKey, hasKey, ih]
      have hpk : p.1 = k := by simpa using hb
      rw [hpk]
    | false =>
      rw [if_neg (by simp), hasKey, hasKey, ih]

theorem jlookup_setVal_self (fields : List (String × JVal)) (k : String)
    (v : JVal) (h : hasKey fields k = true) :
    jlookup (setVal fields k v) k = some v := by
  induction fields with
  | nil => simp [hasKey] at h
  | cons p ps ih =>
    rw [hasKey] at h
    rw [setVal]
    cases hb : (p.1 == k) with
    | true =>
      rw [if_pos rfl, jlookup, if_pos (by simp)]
    | false =>
      rw [if_neg (by simp), jlookup, if_neg (by simp [hb])]
      rw [hb] at h
      simp only [Bool.false_or] at h
      exact ih h

theorem jlookup_setVal_ne (fields : List (String × JVal)) (k k' : String)
    (v : JVal) (hne : k' ≠ k) :
    jlookup (setVal fields k v) k' = jlookup fields k' := by
  induction fields with
  | nil => rfl
  | cons p ps ih =>
    rw [setVal]
    cases hb : (p.1 == k) with
    | true =>
      have hpk : p.1 = k := by simpa using hb
      have hk' : (k == k') = false := by
        simp only [beq_eq_false_iff_ne, ne_eq]
        exact fun hh => hne hh.symm
      rw [if_pos rfl, jlookup, jlookup, if_neg (by simp [hk']),
        if_neg (by simp [hpk, hk']), ih]
    | false =>
      rw [if_neg (by simp), jlookup, jlookup]
      cases hpx : (p.1 == k') with
      | true => rw [if_pos rfl, if_pos rfl]
      | false => rw [if_neg (by simp), if_neg (by simp), ih]

theorem nonEmptyIfList_of_jtruthy (v : JVal) (h : jtruthy v = true) :
    nonEmptyIfList v = true := by
  cases v <;> simp_all [jtruthy, nonEmptyIfList]

/-- Whatever object with both keys reaches the normalization of lines
104–108, both keys of the result hold truthy values. -/
theorem validateAnalysis_lookups (fields : List (String × JVal))
    (hc : hasKey fields "conditions" = true)
    (hr : hasKey fields "recommendations" = true) :
    ∃ cv rv, jvGet (validateAnalysis (.obj fields)) "conditions" = some cv ∧
      jtruthy cv = true ∧
      jvGet (validateAnalysis (.obj fields)) "recommendations" = some rv ∧
      jtruthy rv = true := by
  obtain ⟨cv0, hcv0⟩ := jlookup_isSome_of_hasKey fields _ hc
  obtain ⟨rv0, hrv0⟩ := jlookup_isSome_of_hasKey fields _ hr
  have hgc : jgetD fields "conditions" = cv0 := by simp [jgetD, hcv0]
  have hgr : jgetD fields "recommendations" = rv0 := by simp [jgetD, hrv0]
  unfold validateAnalysis
  simp only []
  rw [if_pos (by rw [hc, hr]; rfl), hgc]
  by_cases h1 : jtruthy cv0 = true
  · rw [if_pos h1, hgr]
    by_cases h2 : jtruthy rv0 = true
    · rw [if_pos h2]
      exact ⟨cv0, rv0, hcv0, h1, hrv0, h2⟩
    · rw [if_neg h2]
      refine ⟨cv0, defaultRecommendations, ?_, h1, ?_, rfl⟩
      · show jlookup (setVal fields "recommendations" defaultRecommendations)
            "conditions" = some cv0
        rw [jlookup_setVal_ne _ _ _ _ (by decide)]
        exact hcv0
      · exact jlookup_setVal_self _ _ _ hr
  · rw [if_neg h1]
    have hree : jlookup (setVal fields "conditions" defaultConditions)
        "recommendations" = some rv0 := by
      rw [jlookup_setVal_ne _ _ _ _ (by decide)]
      exact hrv0
    have hgd : jgetD (setVal fields "conditions" defaultConditions)
        "recommendations" = rv0 := by simp [jgetD, hree]
    rw [hgd]
    by_cases h2 : jtruthy rv0 = true
    · rw [if_pos h2]
      exact ⟨defaultConditions, rv0, jlookup_setVal_self _ _ _ hc, rfl,
        hree, h2⟩
    · rw [if_neg h2]
      refine ⟨defaultConditions, defaultRecommendations, ?_, rfl, ?_, rfl⟩
      · show jlookup (setVal (setVal fields "conditions" defaultConditions)
            "recommendations" defaultRecommendations) "conditions" =
          some defaultConditions
        rw [jlookup_setVal_ne _ _ _ _ (by decide)]
        exact jlookup_setVal_self _ _ _ hc
      · exact jlookup_setVal_self _ _ _
          (by rw [hasKey_setVal]; exact hr)

theorem validateAnalysis_missing (fields : List (String × JVal))
    (h : hasKey fields "conditions" = false ∨
      hasKey fields "recommendations" = false) :
    validateAnalysis (.obj fields) = techErrorFallback := by
  unfold validateAnalysis
  simp only []
  rcases h with h | h <;> rw [if_neg (by simp [h])]

/-! ## Claim theorems -/

/-- C1 (counterexample): the claim says every value returned by
`get_symptom_analysis` has a non-empty `conditions` field and a non-empty
`recommendations` field — in the spec's data model both are lists of
strings.  For the backend text whose parsed `conditions` value is the
number `5` (truthy, so the line-105 check keeps it), the returned value's
`conditions` is not a list at all, hence not a non-empty list. -/
theorem C1_counterexample :
    get_symptom_analysis
        "\x7b\"conditions\": 5, \"recommendations\": [\"x\"]\x7d" =
      .obj [("conditions", .num 5 0), ("recommendations", .arr [.str "x"])] ∧
    hasNonEmptyListField
        (get_symptom_analysis
          "\x7b\"conditions\": 5, \"recommendations\": [\"x\"]\x7d")
        "conditions" = false := by
  constructor
  · rfl
  · rfl

/-- C1 (amended): every value `get_symptom_analysis` returns is an object
carrying both keys with Python-truthy values, and whenever such a value is
a list it is a non-empty list; in particular both fallback payloads and
both substituted defaults are non-empty lists of strings.  The original
claim's "non-empty list" reading fails only because wrong-typed truthy
values pass through unchecked (see C2). -/
theorem C1_fields_truthy_and_nonempty_if_lists (raw : String) :
    ∃ cv rv,
      jvGet (get_symptom_analysis raw) "conditions" = some cv ∧
        jtruthy cv = true ∧ nonEmptyIfList cv = true ∧
      jvGet (get_symptom_analysis raw) "recommendations" = some rv ∧
        jtruthy rv = true ∧ nonEmptyIfList rv = true := by
  unfold get_symptom_analysis
  cases hp : parseJson (cleanResponse raw) with
  | none => exact ⟨_, _, rfl, rfl, rfl, rfl, rfl, rfl⟩
  | some a =>
    cases a with
    | null => exact ⟨_, _, rfl, rfl, rfl, rfl, rfl, rfl⟩
    | bool b => exact ⟨_, _, rfl, rfl, rfl, rfl, rfl, rfl⟩
    | num m s => exact ⟨_, _, rfl, rfl, rfl, rfl, rfl, rfl⟩
    | str s => exact ⟨_, _, rfl, rfl, rfl, rfl, rfl, rfl⟩
    | arr l => exact ⟨_, _, rfl, rfl, rfl, rfl, rfl, rfl⟩
    | obj fields =>
      simp only []
      by_cases hc : hasKey fields "conditions" = true
      · by_cases hr : hasKey fields "recommendations" = true
        · obtain ⟨cv, rv, h1, h2, h3, h4⟩ := validateAnalysis_lookups fields hc hr
          exact ⟨cv, rv, h1, h2, nonEmptyIfList_of_jtruthy cv h2, h3, h4,
            nonEmptyIfList_of_jtruthy rv h4⟩
        · rw [validateAnalysis_missing fields
            (Or.inr (Bool.eq_false_iff.mpr hr))]
          exact ⟨_, _, rfl, rfl, rfl, rfl, rfl, rfl⟩
      · rw [validateAnalysis_missing fields
          (Or.inl (Bool.eq_false_iff.mpr hc))]
        exact ⟨_, _, rfl, rfl, rfl, rfl, rfl, rfl⟩

/-- C2 (counterexample): the claim says a parsed object whose `conditions`
or `recommendations` is not a list of strings is rejected with a
validation failure.  The code only checks key presence: for backend text
with both values being plain strings, the object is returned unchanged as
the result. -/
theorem C2_counterexample :
    get_symptom_analysis
        "\x7b\"conditions\": \"foo\", \"recommendations\": \"bar\"\x7d" =
      .obj [("conditions", .str "foo"), ("recommendations", .str "bar")] := by
  rfl

/-- C2 (amended): a parsed object missing `conditions` or
`recommendations` does fail validation (`ValueError`, surfaced by the
generic handler as `techErrorFallback`); but no type is checked — an
object carrying both keys with truthy values of any type is returned
unchanged. -/
theorem C2_missing_key_fails_no_type_check :
    (∀ fields : List (String × JVal),
        hasKey fields "conditions" = false ∨
          hasKey fields "recommendations" = false →
        validateAnalysis (.obj fields) = techErrorFallback) ∧
    (∀ fields : List (String × JVal),
        hasKey fields "conditions" = true →
        hasKey fields "recommendations" = true →
        jtruthy (jgetD fields "conditions") = true →
        jtruthy (jgetD fields "recommendations") = true →
        validateAnalysis (.obj fields) = .obj fields) := by
  constructor
  · exact validateAnalysis_missing
  · intro fields hc hr ht1 ht2
    unfold validateAnalysis
    simp only []
    rw [if_pos (by rw [hc, hr]; rfl), if_pos ht1, if_pos ht2]

/-- C2 (witness for the amended claim). -/
theorem C2_missing_key_fails_no_type_check_witness :
    validateAnalysis (.obj [("conditions", .arr [.str "a"])]) =
        techErrorFallback ∧
    validateAnalysis
        (.obj [("conditions", .str "foo"), ("recommendations", .str "bar")]) =
      .obj [("conditions", .str "foo"), ("recommendations", .str "bar")] :=
  ⟨C2_missing_key_fails_no_type_check.1 _ (Or.inr rfl),
   C2_missing_key_fails_no_type_check.2 _ rfl rfl rfl rfl⟩

/-- C5: an empty `conditions` list is replaced by the single default
message while `recommendations` stays `["x"]`; symmetrically an empty
`recommendations` list is replaced by its single default message while any
truthy `conditions` value is left unaltered. -/
theorem C5_partial_fallback :
    validateAnalysis
        (.obj [("conditions", .arr []), ("recommendations", .arr [.str "x"])]) =
      .obj [("conditions", defaultConditions),
        ("recommendations", .arr [.str "x"])] ∧
    ∀ cv : JVal, jtruthy cv = true →
      validateAnalysis (.obj [("conditions", cv), ("recommendations", .arr [])]) =
        .obj [("conditions", cv), ("recommendations", defaultRecommendations)] := by
  constructor
  · rfl
  · intro cv h
    unfold validateAnalysis
    simp only []
    rw [if_pos (show
      (hasKey [("conditions", cv), ("recommendations", JVal.arr [])]
          "conditions" &&
        hasKey [("conditions", cv), ("recommendations", JVal.arr [])]
          "recommendations") = true from rfl)]
    have h1 : jgetD [("conditions", cv), ("recommendations", JVal.arr [])]
        "conditions" = cv := rfl
    rw [h1, if_pos h]
    rfl

/-- C5 (witness). -/
theorem C5_partial_fallback_witness :
    jtruthy (JVal.arr [.str "y"]) = true ∧
    validateAnalysis
        (.obj [("conditions", .arr [.str "y"]), ("recommendations", .arr [])]) =
      .obj [("conditions", .arr [.str "y"]),
        ("recommendations", defaultRecommendations)] :=
  ⟨rfl, C5_partial_fallback.2 _ rfl⟩

/-- C3 (counterexample): the claim says a length-2 `symptoms` (or an age
of 121) is rejected with HTTP 400, and that a length-3/age-120 request is
accepted.  FastAPI answers a pydantic body failure with its default
handler, HTTP 422 — `app.py` installs no custom one — and the
boundary-valid request does not complete either: it answers HTTP 500,
because the handler never awaits the backend coroutine. -/
theorem C3_counterexample :
    (analyze ⟨"ab", none, none⟩ "x" none).status = 422 ∧
    (analyze ⟨"abc", some 120, none⟩
        "\x7b\"conditions\": [\"a\"], \"recommendations\": [\"b\"]\x7d"
        (some 1)).status = 500 := by
  constructor
  · rfl
  · rfl

/-- C3 (amended): a body with `symptoms` of length 2 or with `age = 121`
is rejected by request validation with FastAPI's default HTTP 422,
identically for every backend text and store outcome — before (in fact
without) any backend involvement; `symptoms` of length 3 with `age = 120`
passes body validation, but every request that passes validation with
non-blank symptoms then answers HTTP 500, because line 103 never awaits
the `async` backend call and line 110 raises `TypeError` into the
catch-all handler. -/
theorem C3_request_validation :
    (∀ (r : SymptomRequest) (llm : String) (db : Option Nat),
        r.symptoms.length = 2 → analyze r llm db = .validationError) ∧
    (∀ (r : SymptomRequest) (llm : String) (db : Option Nat),
        r.age = some 121 → analyze r llm db = .validationError) ∧
    HttpResult.validationError.status = 422 ∧
    (∀ (s : String) (g : Option String), s.length = 3 →
        requestValid ⟨s, some 120, g⟩ = true) ∧
    (∀ (r : SymptomRequest) (llm : String) (db : Option Nat),
        requestValid r = true → pyStrip r.symptoms ≠ "" →
        (analyze r llm db).status = 500) := by
  refine ⟨?_, ?_, rfl, ?_, ?_⟩
  · intro r llm db h
    have hv : requestValid r = false := by
      simp [requestValid, h]
    simp [analyze, hv]
  · intro r llm db h
    have hv : requestValid r = false := by
      simp [requestValid, validAge, h]
    simp [analyze, hv]
  · intro s g h
    simp [requestValid, validAge, h]
  · intro r llm db hv hb
    unfold analyze
    rw [hv]
    simp only [Bool.not_true, Bool.false_eq_true, if_false]
    rw [if_neg hb]
    rfl

/-- C3 (witness for the amended claim). -/
theorem C3_request_validation_witness :
    analyze ⟨"ab", none, none⟩ "x" none = .validationError ∧
    analyze ⟨"abc", some 121, none⟩ "x" none = .validationError ∧
    requestValid ⟨"xyz", some 120, none⟩ = true ∧
    (analyze ⟨"xyz", some 120, none⟩ "x" none).status = 500 :=
  ⟨C3_request_validation.1 _ "x" none (by decide),
   C3_request_validation.2.1 _ "x" none (by decide),
   C3_request_validation.2.2.2.1 "xyz" none (by decide),
   C3_request_validation.2.2.2.2 _ "x" none (by decide) (by decide)⟩

/-- C4 (counterexample): the claim's second half says the HTTP call still
returns 200 when the backend text is not valid JSON.  It answers 500: the
handler never awaits the backend coroutine, so no fallback (nor any
analysis) ever reaches the response. -/
theorem C4_counterexample :
    (analyze ⟨"abc", none, none⟩ "I cannot help with that" none).status =
      500 := by
  rfl

/-- C4 (amended): whenever the cleaned backend text fails to parse as
JSON, `get_symptom_analysis` — as the function of the raw response text it
is — returns the fixed `JSONDecodeError` fallback (conditions saying the
analysis could not be completed, recommendations advising professional
consultation and immediate care for severe symptoms) without raising; the
`/analyze` endpoint, however, answers HTTP 500, not 200, for every
validated request, since the un-awaited coroutine bound at line 103 makes
line 110 raise before any analysis is used. -/
theorem C4_invalid_json_fallback (raw : String)
    (hbad : parseJson (cleanResponse raw) = none) :
    get_symptom_analysis raw = jsonErrorFallback ∧
    ∀ (r : SymptomRequest) (db : Option Nat), requestValid r = true →
      pyStrip r.symptoms ≠ "" → (analyze r raw db).status = 500 := by
  constructor
  · unfold get_symptom_analysis
    rw [hbad]
  · intro r db hv hb
    unfold analyze
    rw [hv]
    simp only [Bool.not_true, Bool.false_eq_true, if_false]
    rw [if_neg hb]
    rfl

/-- C4 (witness): the spec's own example text. -/
theorem C4_invalid_json_fallback_witness :
    get_symptom_analysis "I cannot help with that" = jsonErrorFallback ∧
    (analyze ⟨"abc", none, none⟩ "I cannot help with that" none).status =
      500 :=
  ⟨(C4_invalid_json_fallback "I cannot help with that" rfl).1,
   (C4_invalid_json_fallback "I cannot help with that" rfl).2
     ⟨"abc", none, none⟩ none (by decide) (by decide)⟩

/-- C6 (counterexample): fence stripping is not idempotent.  A text
beginning with six backticks loses one three-character marker per
application: the first pass leaves a text that itself starts with a fence
marker, and a second pass strips again. -/
theorem C6_counterexample :
    stripFences (stripFences "``````x") ≠ stripFences "``````x" := by
  decide

theorem isPrefixOf_of_append (l1 l2 s : List Char)
    (h : (l1 ++ l2).isPrefixOf s = true) : l1.isPrefixOf s = true := by
  induction l1 generalizing s with
  | nil => cases s <;> rfl
  | cons a as ih =>
    cases s with
    | nil => simp [List.isPrefixOf] at h
    | cons b bs =>
      simp only [List.cons_append, List.isPrefixOf, Bool.and_eq_true] at h ⊢
      exact ⟨h.1, ih bs h.2⟩

/-- C6 (amended): fence stripping leaves unchanged every already-stripped
text that neither starts nor ends with a fence marker — in particular any
trimmed well-formed JSON text, which can neither start nor end with a
backtick; but it is not idempotent in general (see the counterexample). -/
theorem C6_no_fence_unchanged (s : String) (h0 : pyStrip s = s)
    (h1 : ("```".data).isPrefixOf s.data = false)
    (h2 : ("```".data).isSuffixOf s.data = false) :
    stripFences s = s := by
  have h1' : ("```json".data).isPrefixOf s.data = false := by
    cases hx : ("```json".data).isPrefixOf s.data with
    | false => rfl
    | true =>
      exfalso
      have hx' : ("```".data ++ "json".data).isPrefixOf s.data = true := by
        rw [show "```".data ++ "json".data = "```json".data from by decide]
        exact hx
      have hh := isPrefixOf_of_append "```".data "json".data s.data hx'
      rw [h1] at hh
      exact Bool.false_ne_true hh
  unfold stripFences fenceMarks
  simp only [h1', h1, h2, Bool.false_eq_true, if_false]
  exact h0

/-- C6 (witness for the amended claim). -/
theorem C6_no_fence_unchanged_witness :
    pyStrip "[1, 2]" = "[1, 2]" ∧
    ("```".data).isPrefixOf "[1, 2]".data = false ∧
    ("```".data).isSuffixOf "[1, 2]".data = false ∧
    stripFences "[1, 2]" = "[1, 2]" :=
  ⟨by decide, by decide, by decide,
   C6_no_fence_unchanged "[1, 2]" (by decide) (by decide) (by decide)⟩

/-- C7: the claim says a store-write failure still lets `/analyze` return
HTTP 200 with the analysis content and a null `query_id` — which is what
the `try/except` around `save_query` (`app.py` lines 113–125, setting
`query_id = None`) is written to do.  That code is never reached: line 103
binds the un-awaited coroutine and line 110 raises `TypeError` first, so
the endpoint answers HTTP 500 whether the store would have assigned an id
or failed.  The theorem evaluates the handler on a valid request with a
parsable backend text: the status is 500 for a working store and for a
failing one alike, never 200 with a null id. -/
theorem C7_store_failure_unreachable :
    (analyze ⟨"abc", none, none⟩
        "\x7b\"conditions\": [\"a\"], \"recommendations\": [\"b\"]\x7d"
        (some 7)).status = 500 ∧
    (analyze ⟨"abc", none, none⟩
        "\x7b\"conditions\": [\"a\"], \"recommendations\": [\"b\"]\x7d"
        none).status = 500 := by
  constructor
  · rfl
  · rfl

/-- C8: the claim quantifies over N successful `/analyze` calls, but the
program admits none — every validated call answers HTTP 500 (the
un-awaited coroutine of `app.py` line 103 makes line 110 raise) before
`save_query` is reached, so the store stays empty and `GET
/history?limit=N` returns no records rather than N records newest first.
The theorem evaluates the model: a valid `/analyze` call gives status 500,
and reading the untouched store gives the empty list.  (For rows written
directly into the store with strictly increasing timestamps,
`get_recent_queries_saveAll` above shows the newest-first read-back; rows
sharing a `CURRENT_TIMESTAMP` second tie on the sort key, whose relative
order SQL leaves unspecified.) -/
theorem C8_no_successful_calls :
    (analyze ⟨"abc", none, none⟩
        "\x7b\"conditions\": [\"a\"], \"recommendations\": [\"b\"]\x7d"
        (some 1)).status = 500 ∧
    get_recent_queries emptyDB 2 = [] := by
  constructor
  · rfl
  · rfl

/-- C9: evaluating the context builder at `symptoms = "headache"`,
`age = 0`, `gender = "male"` — the function succeeds, but the provided
`age = 0` is dropped from the context because `if age:` is false at `0`,
contradicting the claim that every provided demographic field, including
age 0, is embedded. -/
theorem C9_age_zero_dropped :
    buildContext "headache" (some 0) (some "male") =
      "Symptoms: headache\nGender: male" := by
  rfl

/-- C10: a record saved by `save_query` is returned by `get_query_by_id`
under the id `save_query` reported, with `conditions` and
`recommendations` equal to the saved lists — they are JSON-encoded by
`json.dumps` on write and decoded by `json.loads` on read, and the two are
mutually inverse on lists of strings.  The hypothesis is the
`AUTOINCREMENT` invariant: every existing row's id is below the next id. -/
theorem C10_round_trip (db : QueryDB) (now : Nat) (symptoms : String)
    (age : Option Int) (gender : Option String)
    (conditions recommendations : List String)
    (hwf : ∀ r ∈ db.rows, r.id < db.nextId) :
    get_query_by_id
        (save_query db now symptoms age gender conditions recommendations).1
        (save_query db now symptoms age gender conditions recommendations).2 =
      some ⟨db.nextId, symptoms, age, gender, .arr (conditions.map .str),
        .arr (recommendations.map .str), now⟩ :=
  get_query_by_id_save_query db now
    ⟨now, symptoms, age, gender, conditions, recommendations⟩ hwf

/-- C10 (witness). -/
theorem C10_round_trip_witness :
    get_query_by_id
        (save_query emptyDB 42 "cough" (some 30) (some "female")
          ["flu", "cold"] ["rest"]).1
        (save_query emptyDB 42 "cough" (some 30) (some "female")
          ["flu", "cold"] ["rest"]).2 =
      some ⟨1, "cough", some 30, some "female",
        .arr [.str "flu", .str "cold"], .arr [.str "rest"], 42⟩ :=
  C10_round_trip emptyDB 42 "cough" (some 30) (some "female")
    ["flu", "cold"] ["rest"] (by intro r hr; simp [emptyDB] at hr)
